import Mathlib

/-!
Shallow embedding of the utest C++ header-only unit-testing library
(src/include/utest.h) together with theorems settling the spec claims.

The embedding models:
* `AssertionException` (message + source location),
* the value universe seen by the string-assertion helpers,
* the SFINAE dispatch of `convertToString`,
* the compile-time pointer guards (`is_any_pointer_or_array`,
  `check_not_pointer_types`) applied by the assertion macros,
* the test runners `testFunc` / `testFunc2` (exception classification and
  the record appended to the global result store),
* `AssertThrows`,
* `str_contains` / `to_string_for_str_assert`,
* the run configuration defaults and the `UTEST_EPILOG` report renderer
  (including its `std::map`-based grouping).

C++ exceptions are modelled explicitly: control flow that may throw is a
value of `Except` / an optional propagated exception.  Wall-clock time is an
external input: the runners take the measured elapsed duration (in
microseconds) as a parameter.
-/

namespace UTest

/-- Model of `utest::AssertionException`: message plus captured source
location (`file_`, `line_`, `function_`). -/
structure AssertionException where
  message : String
  file : String
  line : Nat
  function : String
  deriving Repr, DecidableEq

/-- The single-argument constructor `AssertionException(message)`:
location fields default to the "unknown" sentinels. -/
def AssertionException.mkNoLoc (message : String) : AssertionException :=
  { message := message, file := "unknown", line := 0, function := "unknown" }

/-- `AssertionException::getFormattedMessage()`:
`what() << " at " << file_ << ":" << line_ << " in " << function_`. -/
def AssertionException.getFormattedMessage (e : AssertionException) : String :=
  e.message ++ " at " ++ e.file ++ ":" ++ toString e.line ++ " in " ++ e.function

/-- A C++ exception as seen by the runners' catch clauses: either a
`utest::AssertionException`, some other exception derived from
`std::exception` (identified by its `what()` text), or a thrown object not
derived from `std::exception` at all (e.g. `throw 42;`), which no catch
clause of `testFunc`/`testFunc2` matches. -/
inductive Exc where
  | assertion (e : AssertionException)
  | std (whatMsg : String)
  | other
  deriving Repr, DecidableEq

/-- Outcome of invoking a test callable `f()`. -/
inductive CallOutcome where
  | ok
  | raises (e : Exc)
  deriving Repr, DecidableEq

/-- `utest::details::TestResult`.  `elapsedTime` is stored by the source as
fractional milliseconds obtained from a microsecond duration; we keep the
measured microsecond count. -/
structure TestResult where
  name : String
  group : String
  passed : Bool
  error : String
  elapsedUs : Nat
  deriving Repr, DecidableEq

/-- `utest` run configuration, the four process-wide flags behind
`getAllowEmptyTests` / `getUseAsciiCheckmarks` / `getShowPerformanceInfo` /
`getVerboseMode`. -/
structure Config where
  allowEmptyTests : Bool
  useAsciiCheckmarks : Bool
  showPerformanceInfo : Bool
  verboseMode : Bool
  deriving Repr, DecidableEq

/-- The function-local `static` initializers of the four getters:
`allowEmpty = false`, `useAscii = true`, `showPerf = true`,
`verbose = false`. -/
def defaultConfig : Config :=
  { allowEmptyTests := false
    useAsciiCheckmarks := true
    showPerformanceInfo := true
    verboseMode := false }

/-- Success marker: `getUseAsciiCheckmarks() ? "[OK]" : "✓"`. -/
def successMark (cfg : Config) : String :=
  if cfg.useAsciiCheckmarks then "[OK]" else "✓"

/-- Failure marker: `getUseAsciiCheckmarks() ? "[FAIL]" : "✗"`. -/
def failMark (cfg : Config) : String :=
  if cfg.useAsciiCheckmarks then "[FAIL]" else "✗"

/-- `utest::details::testFunc(name, f, failed)`.

Traces the source: a `TestResult` is initialized (`group = ""`,
`passed = true`), the callable runs, and
* on normal return the result stays passed;
* `catch (const AssertionException &e)` sets `failed = true`,
  `passed = false`, `error = e.getFormattedMessage()`;
* `catch (std::exception &e)` sets `failed = true`, `passed = false`,
  `error = e.what()`;
* any other thrown object matches no catch clause, so it unwinds out of
  `testFunc` before the trailing `getTestResults().push_back(result)` runs:
  no record is appended and the exception propagates.

Returns the updated result store, the updated `failed` flag, and the
exception (if any) propagating out of the runner. -/
def testFunc (name : String) (outcome : CallOutcome) (elapsedUs : Nat)
    (failed : Bool) (results : List TestResult) :
    List TestResult × Bool × Option Exc :=
  match outcome with
  | .ok =>
      (results ++ [{ name := name, group := "", passed := true, error := "",
                     elapsedUs := elapsedUs }], failed, none)
  | .raises (.assertion e) =>
      (results ++ [{ name := name, group := "", passed := false,
                     error := e.getFormattedMessage,
                     elapsedUs := elapsedUs }], true, none)
  | .raises (.std whatMsg) =>
      (results ++ [{ name := name, group := "", passed := false,
                     error := whatMsg, elapsedUs := elapsedUs }], true, none)
  | .raises .other =>
      (results, failed, some .other)

/-- `utest::details::testFunc2(group, name, f, failed)`: identical control
flow to `testFunc`, with the group label attached to the record. -/
def testFunc2 (group name : String) (outcome : CallOutcome) (elapsedUs : Nat)
    (failed : Bool) (results : List TestResult) :
    List TestResult × Bool × Option Exc :=
  match outcome with
  | .ok =>
      (results ++ [{ name := name, group := group, passed := true,
                     error := "", elapsedUs := elapsedUs }], failed, none)
  | .raises (.assertion e) =>
      (results ++ [{ name := name, group := group, passed := false,
                     error := e.getFormattedMessage,
                     elapsedUs := elapsedUs }], true, none)
  | .raises (.std whatMsg) =>
      (results ++ [{ name := name, group := group, passed := false,
                     error := whatMsg, elapsedUs := elapsedUs }], true, none)
  | .raises .other =>
      (results, failed, some .other)

/-- `UTEST_PROLOG()`: `bool errorFound = false;
utest::details::getTestResults().clear()`.  Yields the cleared result store
and the fresh failure flag. -/
def prolog : List TestResult × Bool := ([], false)

/-! ### std::string search (`find`) and the string-assertion helpers -/

/-- `needle` occurs at the front of `hay` (model of the per-position match
performed by `std::string::find`). -/
def startsWithL : List Char → List Char → Bool
  | _, [] => true
  | [], _ :: _ => false
  | h :: hs, n :: ns => h = n && startsWithL hs ns

/-- `std::string::find(needle)`: position of the first occurrence of
`needle` in `hay`, `none` standing for `std::string::npos`. -/
def stringFindL (hay needle : List Char) : Option Nat :=
  if startsWithL hay needle then some 0
  else
    match hay with
    | [] => none
    | _ :: t => (stringFindL t needle).map (· + 1)

/-- `utest::details::str_contains` after both operands have been coerced to
`std::string`: `str.find(substr) != std::string::npos`. -/
def strContains (str substr : String) : Bool :=
  (stringFindL str.toList substr.toList).isSome

/-- A value passed to the string assertions: a native `std::string`, a
C-style string, a wide string (`std::wstring` / `const wchar_t*`, kept as
the list of wide-character code points), or any other stringifiable object
(carried with the text `convertToString` produces for it). -/
inductive StrVal where
  | stdStr (s : String)
  | cStr (s : String)
  | wStr (ws : List Nat)
  | wCStr (ws : List Nat)
  | otherVal (converted : String)
  deriving Repr, DecidableEq

/-- The wide-character transliteration loop of
`to_string_for_str_assert(const std::wstring&)`: each `wchar_t` with
`wc <= 127` is kept, every other one becomes `'?'`. -/
def transliterateWide (ws : List Nat) : String :=
  String.mk (ws.map (fun wc => if wc ≤ 127 then Char.ofNat wc else '?'))

/-- `utest::details::to_string_for_str_assert` overload set: `std::string`
and C-strings pass through, wide strings are transliterated (the
`const wchar_t*` overload delegates to the `std::wstring` one), and the
generic template falls back to `convertToString`. -/
def toStringForStrAssert : StrVal → String
  | .stdStr s => s
  | .cStr s => s
  | .wStr ws => transliterateWide ws
  | .wCStr ws => transliterateWide ws
  | .otherVal converted => converted

/-- The coercion `std::string( x )` performed by `UTEST_ASSERT_STR_EQUALS`
and `UTEST_ASSERT_STR_NOT_EQUALS` on each operand.  `std::string` has no
constructor from `std::wstring` or `const wchar_t*` (and none from an
arbitrary stringifiable object), so those operands do not compile: `none`.
-/
def strEqualsCoerce : StrVal → Option String
  | .stdStr s => some s
  | .cStr s => some s
  | .wStr _ => none
  | .wCStr _ => none
  | .otherVal _ => none

/-- `UTEST_ASSERT_STR_EQUALS( x, y )` where both operands are accepted by
the `std::string` constructor: throws an `AssertionException` exactly when
the coerced texts differ.  (The macro applies no pointer guard.) -/
def assertStrEquals (x y : String) (file : String) (line : Nat)
    (function : String) : Except AssertionException Unit :=
  if x ≠ y then
    .error { message := "String assertion failed: \"" ++ x ++ "\" != \""
                          ++ y ++ "\"",
             file := file, line := line, function := function }
  else
    .ok ()

/-- `utest::details::str_contains(str, substr)` on the string-assertion
value universe: both operands are coerced with `to_string_for_str_assert`,
then searched. -/
def strContainsVal (str substr : StrVal) : Bool :=
  strContains (toStringForStrAssert str) (toStringForStrAssert substr)

/-! ### Compile-time pointer guards -/

/-- The fragment of the C++ type system the guards inspect.  `function` is
a function type, `memberPtr` a pointer-to-member, `nullptrT` is
`std::nullptr_t`; `scalar` covers the remaining non-pointer object types
(each identified by a tag). -/
inductive CppType where
  | scalar (tag : String)
  | ptr (t : CppType)
  | array (t : CppType) (n : Nat)
  | function (tag : String)
  | memberPtr (tag : String)
  | nullptrT
  deriving Repr, DecidableEq

namespace CppType

/-- `std::is_pointer`. -/
def isPointer : CppType → Bool
  | ptr _ => true
  | _ => false

/-- `std::is_array`. -/
def isArray : CppType → Bool
  | array _ _ => true
  | _ => false

/-- `std::is_member_pointer`. -/
def isMemberPointer : CppType → Bool
  | memberPtr _ => true
  | _ => false

/-- `std::is_function`. -/
def isFunction : CppType → Bool
  | function _ => true
  | _ => false

/-- `std::remove_pointer`. -/
def removePointer : CppType → CppType
  | ptr t => t
  | t => t

/-- `std::decay` on this (reference- and cv-free) fragment: arrays decay to
a pointer to the element type, function types decay to a function pointer,
everything else is unchanged. -/
def decay : CppType → CppType
  | array t _ => ptr t
  | function tag => ptr (function tag)
  | t => t

end CppType

/-- `utest::details::is_any_pointer_or_array<T>`: the disjunction exactly
as written in the source (the last clause, pointer-to-function, is
subsumed by `is_pointer`). -/
def isAnyPointerOrArray (t : CppType) : Bool :=
  t.isPointer || t.isArray || (t.decay).isPointer || t.isMemberPointer
    || (t.isPointer && (t.removePointer).isFunction)

/-- `utest::details::is_null_pointer<T>`. -/
def isNullPointerT (t : CppType) : Bool :=
  t = CppType.nullptrT

/-- `utest::details::is_valid_pointer<T>`: pointer, member pointer, or
`std::nullptr_t`. -/
def isValidPointer (t : CppType) : Bool :=
  t.isPointer || t.isMemberPointer || isNullPointerT t

/-- `UTEST_ASSERT_EQUALS( x, y )` instantiates
`check_not_pointer_types<decltype(x), decltype(y)>()`, whose
`static_assert` makes the macro compile exactly when neither operand type
is pointer-like. -/
def assertEqualsCompiles (t u : CppType) : Bool :=
  !isAnyPointerOrArray t && !isAnyPointerOrArray u

/-- `UTEST_ASSERT_NOT_EQUALS( x, y )` contains no
`check_not_pointer_types` call (nor any other type guard), so it compiles
for every pair of comparable operand types. -/
def assertNotEqualsCompiles (_t _u : CppType) : Bool :=
  true

/-- `UTEST_ASSERT_PTR_EQUALS( p, q )` instantiates
`check_only_pointer_types`, compiling exactly when both operand types are
pointer-like. -/
def assertPtrEqualsCompiles (t u : CppType) : Bool :=
  isValidPointer t && isValidPointer u

/-! ### The Stringifier (`convertToString`) -/

/-- Static-type traits of a `convertToString` argument, as queried by the
source's SFINAE conditions and by overload resolution: the four exact
types with dedicated non-template overloads (`std::string`, `const char*`,
`bool`, `char`), the `std::is_arithmetic` category, the character-like
exclusions, and streamability. -/
structure TypeDesc where
  isStdString : Bool
  isConstCharPtr : Bool
  isBool : Bool
  isChar : Bool
  isWchar : Bool
  isChar16 : Bool
  isChar32 : Bool
  isArithmetic : Bool
  isStreamable : Bool
  deriving Repr, DecidableEq

/-- `utest::details::is_numeric<T>`: arithmetic but neither `bool` nor one
of the four character types. -/
def isNumericT (t : TypeDesc) : Bool :=
  t.isArithmetic && !t.isBool && !t.isChar && !t.isWchar && !t.isChar16
    && !t.isChar32

/-- Conversion strategy chosen for one argument of `convertToString`. -/
inductive ConvStrategy where
  | verbatim
  | boolWords
  | singleChar
  | decimal
  | stream
  | opaqueFallback
  deriving Repr, DecidableEq

/-- Strategy selection of the SOURCE overload set: C++ overload resolution
prefers the four exact non-template overloads (`std::string`,
`const char*`, `bool`, `char`); otherwise exactly one of the three
`enable_if` templates is enabled — `is_numeric` (`std::to_string`),
`!is_numeric && is_streamable` (`ostringstream`), and
`!is_numeric && !is_streamable` (the `typeid`/address fallback). -/
def sourceConvertStrategy (t : TypeDesc) : ConvStrategy :=
  if t.isStdString then .verbatim
  else if t.isConstCharPtr then .verbatim
  else if t.isBool then .boolWords
  else if t.isChar then .singleChar
  else if isNumericT t then .decimal
  else if !isNumericT t && t.isStreamable then .stream
  else .opaqueFallback

/-- Strategy selection as the SPEC words it (§4.1): the exact-type special
cases always take precedence; otherwise a numeric/arithmetic type
excluding boolean and character-like types uses the standard decimal
representation; otherwise a streamable type uses stream formatting;
otherwise the opaque fallback. -/
def specConvertStrategy (t : TypeDesc) : ConvStrategy :=
  if t.isStdString || t.isConstCharPtr then .verbatim
  else if t.isBool then .boolWords
  else if t.isChar then .singleChar
  else if t.isArithmetic
          && !t.isBool
          && !(t.isChar || t.isWchar || t.isChar16 || t.isChar32) then .decimal
  else if t.isStreamable then .stream
  else .opaqueFallback

/-- A concrete value reaching `convertToString`, one constructor per
conversion strategy of the source: an integer (representative of the
numeric overload), the four exact-overload types, a streamable object
(carried with the text its `operator<<` writes), and a non-streamable
object (carried with its `typeid(T).name()` and the text the stream
insertion of `&value` produces for its address). -/
inductive CppValue where
  | intVal (n : Int)
  | boolVal (b : Bool)
  | charVal (c : Char)
  | stringVal (s : String)
  | cstrVal (s : String)
  | streamableVal (streamed : String)
  | opaqueVal (typeName : String) (addr : String)
  deriving Repr, DecidableEq

/-- `utest::details::convertToString` evaluated on the concrete value
universe: `std::to_string` for the numeric representative, the four
specializations, `ostringstream` output for streamable values, and
`"[" << typeid(T).name() << " at " << &value << "]"` otherwise. -/
def convertToString : CppValue → String
  | .intVal n => toString n
  | .boolVal b => if b then "true" else "false"
  | .charVal c => String.mk [c]
  | .stringVal s => s
  | .cstrVal s => s
  | .streamableVal streamed => streamed
  | .opaqueVal typeName addr => "[" ++ typeName ++ " at " ++ addr ++ "]"

/-! ### AssertThrows -/

/-- The informational capture performed by `AssertThrows`' catch clauses:
`catch (const std::exception& e)` stores `e.what()` (an
`AssertionException` is an `std::exception`, so it is caught there too),
`catch (...)` stores `"unknown exception"`; with no exception the local
`exceptionMsg` keeps its empty initial value.  The captured text is used
for nothing else — in particular it is never re-thrown. -/
def assertThrowsCapturedMsg : Option Exc → String
  | some (.assertion e) => e.message
  | some (.std whatMsg) => whatMsg
  | some .other => "unknown exception"
  | none => ""

/-- `utest::details::AssertThrows(assertion, msg)`: invokes the callable;
any exception whatsoever sets `throwFound` (and is not re-thrown); if no
exception was observed, an `AssertionException` without location is
thrown, with `msg` appended when non-empty. -/
def AssertThrows (outcome : Option Exc) (msg : String) :
    Except AssertionException Unit :=
  let throwFound := outcome.isSome
  if !throwFound then
    if msg.length > 0 then
      .error (AssertionException.mkNoLoc
        ("Expected exception was not thrown: " ++ msg))
    else
      .error (AssertionException.mkNoLoc "Expected exception was not thrown")
  else
    .ok ()

/-! ### UTEST_EPILOG: grouping and report rendering -/

/-- Lexicographic order on wide/narrow character sequences by code point:
the model of `std::less<std::string>` (which compares `char`s as unsigned
bytes; on the code-point model the comparison is the same for the
single-byte characters group labels are made of). -/
def strLtL : List Char → List Char → Bool
  | [], [] => false
  | [], _ :: _ => true
  | _ :: _, [] => false
  | a :: as, b :: bs =>
    if a.toNat < b.toNat then true
    else if b.toNat < a.toNat then false
    else strLtL as bs

/-- `std::less<std::string>` on the string model. -/
def strLt (a b : String) : Bool := strLtL a.toList b.toList

/-- One step of `groupedResults[key].push_back(&result)` on the model of
`std::map<std::string, std::vector<const TestResult*>>`: an association
list kept sorted by key.  An existing key gets the record appended to its
vector; a missing key is inserted at its ordered position with a
one-element vector. -/
def mapInsert (k : String) (v : TestResult) :
    List (String × List TestResult) → List (String × List TestResult)
  | [] => [(k, [v])]
  | (k', vs) :: rest =>
    if k = k' then (k', vs ++ [v]) :: rest
    else if strLt k k' then (k, [v]) :: (k', vs) :: rest
    else (k', vs) :: mapInsert k v rest

/-- The first loop of `UTEST_EPILOG`: every record is pushed onto
`groupedResults[result.group]` in store order (the source's
`result.group.empty()` branch writes to `groupedResults[""]`, which is the
same key). -/
def buildGroups (results : List TestResult) :
    List (String × List TestResult) :=
  results.foldl (fun m r => mapInsert r.group r m) []

/-- `std::map::operator[]` lookup on the association-list model (an absent
key reads as the empty vector). -/
def lookupGroup (k : String) : List (String × List TestResult) →
    List TestResult
  | [] => []
  | (k', vs) :: rest => if k = k' then vs else lookupGroup k rest

/-- Three-decimal fixed formatting of `n` as a 0-padded field (the
`std::setprecision(3)` fractional part). -/
def pad3 (n : Nat) : String :=
  if n < 10 then "00" ++ toString n
  else if n < 100 then "0" ++ toString n
  else toString n

/-- The elapsed-time text: the source stores
`duration.count() / 1000.0` milliseconds and prints it with
`std::fixed << std::setprecision(3)`, i.e. the microsecond count split at
the thousands. -/
def fmtMs (us : Nat) : String :=
  toString (us / 1000) ++ "." ++ pad3 (us % 1000)

/-- The  ` (...ms)` suffix appended when `getShowPerformanceInfo()`. -/
def perfSuffix (cfg : Config) (us : Nat) : String :=
  if cfg.showPerformanceInfo then " (" ++ fmtMs us ++ "ms)" else ""

/-- The per-record line of the epilog's rendering loop: marker, name,
`" - "` plus the diagnostic when failed, optional timing.  (The source's
two `group.empty()` branches print the same `result->name` either way.) -/
def renderRecord (cfg : Config) (r : TestResult) : String :=
  if r.passed then
    successMark cfg ++ " " ++ r.name ++ perfSuffix cfg r.elapsedUs
  else
    failMark cfg ++ " " ++ r.name ++ " - " ++ r.error
      ++ perfSuffix cfg r.elapsedUs

/-- The group-header output: a non-empty group prints
`"\n" << group.first << ":\n"` (a blank line, then the group name with a
colon); the empty group prints no header. -/
def groupHeaderLines (g : String) : List String :=
  if g = "" then [] else ["", g ++ ":"]

/-- The rendering loop over `groupedResults`: for each entry, the optional
header followed by the lines of its records. -/
def renderGroups (cfg : Config)
    (groups : List (String × List TestResult)) : List String :=
  groups.flatMap (fun p => groupHeaderLines p.1
    ++ p.2.map (renderRecord cfg))

/-- All records in rendering order (the order in which the epilog's nested
loops visit them and count `passed`/`failed`). -/
def flatRecords (groups : List (String × List TestResult)) :
    List TestResult :=
  groups.flatMap (fun p => p.2)

/-- `EXIT_SUCCESS`. -/
def EXIT_SUCCESS : Nat := 0

/-- `EXIT_FAILURE`. -/
def EXIT_FAILURE : Nat := 1

/-- `UTEST_EPILOG()`: the summary lines printed (one list entry per output
line) and the value returned from `main` (the process exit status).
Mirrors the macro: header; the empty-store branch with its "no tests"
notice and `getAllowEmptyTests()` verdict; otherwise grouping via the
`std::map`, the per-group rendering with `passed`/`failed` counted over
the rendered records, the totals line, and the final
`FAILURE`/`SUCCESS` line chosen by `errorFound || failed > 0`. -/
def epilog (results : List TestResult) (errorFound : Bool) (cfg : Config) :
    List String × Nat :=
  let header := ["", "======================================",
                 "Test Summary:", "======================================"]
  if results.isEmpty then
    if cfg.allowEmptyTests then
      (header ++ ["No tests were run!", "======================================",
                  "SUCCESS (empty tests allowed)"], EXIT_SUCCESS)
    else
      (header ++ ["No tests were run!", "======================================",
                  "FAILURE"], EXIT_FAILURE)
  else
    let groups := buildGroups results
    let rendered := flatRecords groups
    let failedCount := (rendered.filter (fun r => !r.passed)).length
    let passedCount := (rendered.filter (fun r => r.passed)).length
    let totalTimeUs := (results.map (fun r => r.elapsedUs)).sum
    let totalsLine := "Total: " ++ toString (passedCount + failedCount)
      ++ " tests, " ++ toString passedCount ++ " passed " ++ successMark cfg
      ++ ", " ++ toString failedCount ++ " failed " ++ failMark cfg
      ++ (if cfg.showPerformanceInfo then
            " (Total time: " ++ fmtMs totalTimeUs ++ "ms)"
          else "")
    let verdictLine := if errorFound || failedCount > 0 then "FAILURE"
                       else "SUCCESS"
    let exitCode := if errorFound || failedCount > 0 then EXIT_FAILURE
                    else EXIT_SUCCESS
    (header ++ renderGroups cfg groups
      ++ ["--------------------------------------", totalsLine,
          "======================================", verdictLine],
     exitCode)

/-- The keys of a grouped map, strictly increasing in the `std::map`
order. -/
def SortedKeys (m : List (String × List TestResult)) : Prop :=
  List.Chain' (fun a b => strLt a.1 b.1 = true) m

/-- The group labels of a result store in first-seen (registration)
order — the order the spec prescribes for the rendered report. -/
def firstSeenGroups (rs : List TestResult) : List String :=
  (rs.map (fun r => r.group)).eraseDups

/-! ### Facts about the string order used by the `std::map` model -/

theorem charToNat_inj {a b : Char} (h : a.toNat = b.toNat) : a = b :=
  Char.eq_of_val_eq (UInt32.eq_of_val_eq (Fin.eq_of_val_eq h))

theorem stringToList_inj {a b : String} (h : a.toList = b.toList) : a = b := by
  cases a
  cases b
  simp [String.toList] at h
  simp [h]

theorem strLtL_irrefl : ∀ as : List Char, strLtL as as = false
  | [] => rfl
  | _ :: as => by simp [strLtL, strLtL_irrefl as]

theorem strLtL_asymm : ∀ as bs : List Char,
    strLtL as bs = true → strLtL bs as = false
  | [], [] => by simp [strLtL]
  | [], _ :: _ => by simp [strLtL]
  | _ :: _, [] => by simp [strLtL]
  | a :: as, b :: bs => by
    simp only [strLtL]
    intro h
    rcases Nat.lt_trichotomy a.toNat b.toNat with hab | hab | hab
    · simp [hab, Nat.not_lt.mpr (Nat.le_of_lt hab), Nat.lt_irrefl]
    · simp [hab, Nat.lt_irrefl] at h ⊢
      exact strLtL_asymm as bs h
    · simp [hab, Nat.not_lt.mpr (Nat.le_of_lt hab)] at h

theorem strLtL_connex : ∀ as bs : List Char,
    strLtL as bs = false → strLtL bs as = false → as = bs
  | [], [] => by simp
  | [], _ :: _ => by simp [strLtL]
  | _ :: _, [] => by simp [strLtL]
  | a :: as, b :: bs => by
    simp only [strLtL]
    intro h₁ h₂
    rcases Nat.lt_trichotomy a.toNat b.toNat with hab | hab | hab
    · simp [hab] at h₁
    · simp [hab, Nat.lt_irrefl] at h₁ h₂
      have := strLtL_connex as bs h₁ h₂
      simp [charToNat_inj hab, this]
    · simp [hab] at h₂

theorem strLtL_trans : ∀ as bs cs : List Char,
    strLtL as bs = true → strLtL bs cs = true → strLtL as cs = true := by
  intro as
  induction as with
  | nil =>
    intro bs cs h₁ h₂
    cases bs with
    | nil => simp [strLtL] at h₁
    | cons b bs =>
      cases cs with
      | nil => simp [strLtL] at h₂
      | cons c cs => simp [strLtL]
  | cons a as ih =>
    intro bs cs h₁ h₂
    cases bs with
    | nil => simp [strLtL] at h₁
    | cons b bs =>
      cases cs with
      | nil => simp [strLtL] at h₂
      | cons c cs =>
        simp only [strLtL] at h₁ h₂ ⊢
        by_cases hab : a.toNat < b.toNat
        · by_cases hbc : b.toNat < c.toNat
          · simp [Nat.lt_trans hab hbc]
          · by_cases hcb : c.toNat < b.toNat
            · simp [hbc, hcb] at h₂
            · have hbceq : b.toNat = c.toNat :=
                Nat.le_antisymm (Nat.not_lt.mp hcb) (Nat.not_lt.mp hbc)
              simp [hbceq ▸ hab]
        · by_cases hba : b.toNat < a.toNat
          · simp [hab, hba] at h₁
          · have habeq : a.toNat = b.toNat :=
              Nat.le_antisymm (Nat.not_lt.mp hba) (Nat.not_lt.mp hab)
            simp [hab, hba] at h₁
            by_cases hbc : b.toNat < c.toNat
            · simp [habeq ▸ hbc]
            · by_cases hcb : c.toNat < b.toNat
              · simp [hbc, hcb] at h₂
              · have hbceq : b.toNat = c.toNat :=
                  Nat.le_antisymm (Nat.not_lt.mp hcb) (Nat.not_lt.mp hbc)
                simp [hbc, hcb] at h₂
                have hac : a.toNat = c.toNat := habeq.trans hbceq
                simp [hac, Nat.lt_irrefl, ih bs cs h₁ h₂]

theorem strLt_irrefl (s : String) : strLt s s = false :=
  strLtL_irrefl s.toList

theorem strLt_asymm {a b : String} (h : strLt a b = true) :
    strLt b a = false :=
  strLtL_asymm a.toList b.toList h

theorem strLt_connex {a b : String} (hne : a ≠ b)
    (h : strLt a b = false) : strLt b a = true := by
  by_contra hba
  exact hne (stringToList_inj
    (strLtL_connex a.toList b.toList h (Bool.eq_false_iff.mpr hba)))

theorem strLt_trans {a b c : String} (h₁ : strLt a b = true)
    (h₂ : strLt b c = true) : strLt a c = true :=
  strLtL_trans a.toList b.toList c.toList h₁ h₂

theorem strLt_ne {a b : String} (h : strLt a b = true) : a ≠ b := by
  intro he
  subst he
  simp [strLt_irrefl] at h

theorem strLt_to_empty (s : String) : strLt s "" = false := by
  show strLtL s.toList "".toList = false
  cases s.toList <;> rfl

/-! ### Facts about the substring search -/

theorem startsWithL_nil_needle : ∀ hay : List Char,
    startsWithL hay [] = true := by
  intro hay
  cases hay <;> rfl

theorem startsWithL_self_append : ∀ s q : List Char,
    startsWithL (s ++ q) s = true
  | [], q => startsWithL_nil_needle q
  | c :: s, q => by simp [startsWithL, startsWithL_self_append s q]

theorem stringFindL_isSome_of_split : ∀ p s q : List Char,
    (stringFindL (p ++ (s ++ q)) s).isSome = true
  | [], s, q => by
    rw [stringFindL.eq_def]
    simp [startsWithL_self_append s q]
  | c :: p, s, q => by
    rw [stringFindL.eq_def]
    by_cases h : startsWithL (c :: (p ++ (s ++ q))) s
    · simp [h]
    · simp [h, stringFindL_isSome_of_split p s q]

theorem stringAppend_toList (a b : String) :
    (a ++ b).toList = a.toList ++ b.toList := by
  simp [String.toList, String.data_append]

theorem strContains_of_split {hay p s q : String}
    (h : hay = p ++ s ++ q) : strContains hay s = true := by
  subst h
  show (stringFindL (p ++ s ++ q).toList s.toList).isSome = true
  rw [stringAppend_toList, stringAppend_toList, List.append_assoc]
  exact stringFindL_isSome_of_split p.toList s.toList q.toList

theorem stringAppend_assoc (a b c : String) :
    a ++ b ++ c = a ++ (b ++ c) := by
  apply stringToList_inj
  simp [stringAppend_toList, List.append_assoc]

theorem stringEmpty_append (s : String) : "" ++ s = s := by
  apply stringToList_inj
  simp [stringAppend_toList]

theorem stringAppend_empty (s : String) : s ++ "" = s := by
  apply stringToList_inj
  simp [stringAppend_toList]

/-! ### Facts about the grouping map of the epilog -/

theorem flatRecords_nil : flatRecords [] = [] := rfl

theorem flatRecords_cons (p : String × List TestResult)
    (m : List (String × List TestResult)) :
    flatRecords (p :: m) = p.2 ++ flatRecords m := by
  simp [flatRecords]

theorem flatRecords_mapInsert_perm (k : String) (v : TestResult) :
    ∀ m : List (String × List TestResult),
      (flatRecords (mapInsert k v m)).Perm (v :: flatRecords m)
  | [] => by simp [mapInsert, flatRecords]
  | (k', vs) :: rest => by
    rw [mapInsert]
    by_cases hk : k = k'
    · simp only [if_pos hk, flatRecords_cons]
      exact (List.perm_append_singleton v vs).append_right _
    · simp only [if_neg hk]
      by_cases hlt : strLt k k' = true
      · simp only [if_pos hlt, flatRecords_cons]
        simp
      · simp only [if_neg hlt, flatRecords_cons]
        exact ((flatRecords_mapInsert_perm k v rest).append_left vs).trans
          List.perm_middle

theorem flatRecords_buildGroups_aux :
    ∀ (rs : List TestResult) (acc : List (String × List TestResult)),
      (flatRecords (rs.foldl (fun m r => mapInsert r.group r m) acc)).Perm
        (rs ++ flatRecords acc)
  | [], acc => by simp
  | r :: rs, acc => by
    simp only [List.foldl_cons, List.cons_append]
    exact ((flatRecords_buildGroups_aux rs (mapInsert r.group r acc)).trans
      ((flatRecords_mapInsert_perm r.group r acc).append_left rs)).trans
      List.perm_middle

/-- The records visited by the epilog's rendering loops are a permutation
of the result store. -/
theorem flatRecords_buildGroups_perm (rs : List TestResult) :
    (flatRecords (buildGroups rs)).Perm rs := by
  have h := flatRecords_buildGroups_aux rs []
  simpa [flatRecords] using h

theorem lookupGroup_mapInsert_ne {g k : String} (v : TestResult)
    (hne : g ≠ k) :
    ∀ m, lookupGroup g (mapInsert k v m) = lookupGroup g m
  | [] => by simp [mapInsert, lookupGroup, hne]
  | (k', vs) :: rest => by
    rw [mapInsert]
    by_cases hk : k = k'
    · subst hk
      simp [lookupGroup, hne]
    · simp only [if_neg hk]
      by_cases hlt : strLt k k' = true
      · simp only [if_pos hlt]
        rw [lookupGroup]
        simp [hne]
      · simp only [if_neg hlt]
        rw [lookupGroup, lookupGroup]
        by_cases hg : g = k'
        · simp [hg]
        · simp [hg, lookupGroup_mapInsert_ne v hne rest]

theorem lookupGroup_eq_nil_of_forall_lt {k : String} :
    ∀ m : List (String × List TestResult),
      (∀ p ∈ m, strLt k p.1 = true) → lookupGroup k m = []
  | [] => by simp [lookupGroup]
  | (k', vs) :: rest => by
    intro h
    rw [lookupGroup]
    have hk : k ≠ k' := by
      intro he
      have := h (k', vs) (by simp)
      rw [← he] at this
      simp [strLt_irrefl] at this
    simp only [hk, if_false]
    exact lookupGroup_eq_nil_of_forall_lt rest
      (fun p hp => h p (by simp [hp]))

theorem sorted_head_lt_all {k' : String} {vs : List TestResult} :
    ∀ {rest}, SortedKeys ((k', vs) :: rest) →
      ∀ p ∈ rest, strLt k' p.1 = true := by
  intro rest
  induction rest generalizing k' vs with
  | nil => intro _ p hp; simp at hp
  | cons q rest ih =>
    intro hs p hp
    have h₁ : strLt k' q.1 = true := (List.chain'_cons.mp hs).1
    rcases List.mem_cons.mp hp with he | hm
    · subst he; exact h₁
    · exact strLt_trans h₁ (ih (List.chain'_cons.mp hs).2 p hm)

theorem lookupGroup_mapInsert_self (k : String) (v : TestResult) :
    ∀ m, SortedKeys m →
      lookupGroup k (mapInsert k v m) = lookupGroup k m ++ [v]
  | [], _ => by simp [mapInsert, lookupGroup]
  | (k', vs) :: rest, hs => by
    rw [mapInsert]
    by_cases hk : k = k'
    · simp [hk, lookupGroup]
    · simp only [if_neg hk]
      by_cases hlt : strLt k k' = true
      · have h₁ : ∀ p ∈ (k', vs) :: rest, strLt k p.1 = true := by
          intro p hp
          rcases List.mem_cons.mp hp with he | hm
          · rw [he]
            exact hlt
          · exact strLt_trans hlt (sorted_head_lt_all hs p hm)
        have hnil : lookupGroup k ((k', vs) :: rest) = [] :=
          lookupGroup_eq_nil_of_forall_lt ((k', vs) :: rest) h₁
        simp only [if_pos hlt]
        rw [hnil, lookupGroup]
        simp
      · simp only [if_neg hlt]
        rw [lookupGroup, lookupGroup]
        simp only [hk, if_false]
        exact lookupGroup_mapInsert_self k v rest hs.tail

theorem mapInsert_head_key (k : String) (v : TestResult) :
    ∀ m : List (String × List TestResult),
      (∃ t, mapInsert k v m = (k, [v]) :: t ∧ t = m)
      ∨ (∃ vs' t q qs, m = q :: qs ∧ mapInsert k v m = (q.1, vs') :: t)
  | [] => Or.inl ⟨[], rfl, rfl⟩
  | (k', vs) :: rest => by
    rw [mapInsert]
    by_cases hk : k = k'
    · right
      exact ⟨vs ++ [v], rest, (k', vs), rest, rfl, by simp [hk]⟩
    · by_cases hlt : strLt k k'
      · left
        exact ⟨(k', vs) :: rest, by simp [hlt, hk], rfl⟩
      · right
        exact ⟨vs, mapInsert k v rest, (k', vs), rest, rfl,
          by simp [hlt, hk]⟩

theorem sortedKeys_mapInsert (k : String) (v : TestResult) :
    ∀ m, SortedKeys m → SortedKeys (mapInsert k v m)
  | [], _ => by simp [mapInsert, SortedKeys]
  | (k', vs) :: rest, hs => by
    rw [mapInsert]
    by_cases hk : k = k'
    · simp only [if_pos hk]
      exact List.chain'_cons'.mpr
        ⟨(List.chain'_cons'.mp hs).1, (List.chain'_cons'.mp hs).2⟩
    · simp only [if_neg hk]
      by_cases hlt : strLt k k' = true
      · simp only [if_pos hlt]
        apply List.chain'_cons'.mpr
        refine ⟨?_, hs⟩
        intro y hy
        simp only [List.head?_cons, Option.mem_def, Option.some.injEq] at hy
        rw [← hy]
        exact hlt
      · simp only [if_neg hlt]
        have hgt : strLt k' k = true :=
          strLt_connex hk (Bool.eq_false_iff.mpr hlt)
        apply List.chain'_cons'.mpr
        refine ⟨?_, sortedKeys_mapInsert k v rest hs.tail⟩
        intro y hy
        rcases mapInsert_head_key k v rest with ⟨t, hins, _⟩ |
            ⟨vs', t, q, qs, hrest, hins⟩
        · rw [hins] at hy
          simp only [List.head?_cons, Option.mem_def,
            Option.some.injEq] at hy
          rw [← hy]
          exact hgt
        · rw [hins] at hy
          simp only [List.head?_cons, Option.mem_def,
            Option.some.injEq] at hy
          rw [← hy]
          have hhead := (List.chain'_cons'.mp hs).1
          rw [hrest] at hhead
          exact hhead q (by simp)

theorem buildGroups_invariant :
    ∀ (rs : List TestResult) (acc : List (String × List TestResult)),
      SortedKeys acc →
      SortedKeys (rs.foldl (fun m r => mapInsert r.group r m) acc)
      ∧ ∀ g, lookupGroup g (rs.foldl (fun m r => mapInsert r.group r m) acc)
          = lookupGroup g acc ++ rs.filter (fun r => r.group = g)
  | [], acc, hs => ⟨hs, by simp⟩
  | r :: rs, acc, hs => by
    simp only [List.foldl_cons]
    have hs' : SortedKeys (mapInsert r.group r acc) :=
      sortedKeys_mapInsert r.group r acc hs
    obtain ⟨hsort, hlook⟩ := buildGroups_invariant rs
      (mapInsert r.group r acc) hs'
    refine ⟨hsort, fun g => ?_⟩
    rw [hlook g, List.filter_cons]
    by_cases hg : r.group = g
    · subst hg
      rw [lookupGroup_mapInsert_self r.group r acc hs]
      simp
    · rw [lookupGroup_mapInsert_ne r (fun h => hg h.symm) acc]
      simp [hg]

/-- The partition property: each key of the grouped map holds exactly the
store's records of that group, in registration order. -/
theorem lookupGroup_buildGroups (rs : List TestResult) (g : String) :
    lookupGroup g (buildGroups rs) = rs.filter (fun r => r.group = g) := by
  have h := (buildGroups_invariant rs [] (by simp [SortedKeys])).2 g
  simpa [lookupGroup, buildGroups] using h

/-- The grouped map is sorted by `std::less<std::string>`. -/
theorem buildGroups_sorted (rs : List TestResult) :
    SortedKeys (buildGroups rs) :=
  (buildGroups_invariant rs [] (by simp [SortedKeys])).1

theorem keys_nodup_of_sorted :
    ∀ m, SortedKeys m → (m.map Prod.fst).Nodup
  | [], _ => by simp
  | (k', vs) :: rest, hs => by
    simp only [List.map_cons, List.nodup_cons]
    constructor
    · intro hmem
      obtain ⟨p, hp, hpk⟩ := List.mem_map.mp hmem
      have := sorted_head_lt_all hs p hp
      rw [hpk] at this
      exact absurd this (by simp [strLt_irrefl])
    · exact keys_nodup_of_sorted rest hs.tail

theorem mem_keys_split {g : String} :
    ∀ m : List (String × List TestResult),
      g ∈ m.map Prod.fst →
      ∃ m₁ vs m₂, m = m₁ ++ (g, vs) :: m₂ ∧ g ∉ m₁.map Prod.fst
  | [], h => by simp at h
  | (k', vs') :: rest, h => by
    by_cases hg : g = k'
    · exact ⟨[], vs', rest, by simp [hg], by simp⟩
    · have hmem : g ∈ rest.map Prod.fst := by
        simp only [List.map_cons, List.mem_cons] at h
        exact h.resolve_left hg
      obtain ⟨m₁, vs, m₂, heq, hnot⟩ := mem_keys_split rest hmem
      exact ⟨(k', vs') :: m₁, vs, m₂, by simp [heq],
        by simp [hg, hnot]⟩

theorem lookupGroup_append_not_mem {g : String}
    {m₁ : List (String × List TestResult)} (vs : List TestResult)
    (m₂ : List (String × List TestResult))
    (h : g ∉ m₁.map Prod.fst) :
    lookupGroup g (m₁ ++ (g, vs) :: m₂) = vs := by
  induction m₁ with
  | nil => simp [lookupGroup]
  | cons p m₁ ih =>
    rw [List.cons_append, lookupGroup]
    have hg : g ≠ p.1 := by
      intro he
      exact h (by simp [he])
    simp only [hg, if_false]
    exact ih (fun hm => h (by simp [hm]))

theorem renderGroups_append (cfg : Config)
    (m₁ m₂ : List (String × List TestResult)) :
    renderGroups cfg (m₁ ++ m₂)
      = renderGroups cfg m₁ ++ renderGroups cfg m₂ := by
  simp [renderGroups]

theorem getLast_append4 (l : List String) (a b c d : String) :
    (l ++ [a, b, c, d]).getLast? = some d := by
  have h : l ++ [a, b, c, d] = (l ++ [a, b, c]) ++ [d] := by
    simp
  rw [h, List.getLast?_concat]

/-! ### Claim theorems -/

/-- C1 (amended): per runner invocation, when the callable returns
normally or throws an exception derived from `std::exception` (an
`AssertionException` included), exactly one record is appended, its
`passed` flag is true iff no exception escaped the callable, the
`errorFound` flag becomes `failed || !passed`, and nothing propagates out
of the runner; a thrown object not derived from `std::exception` matches
no catch clause of `testFunc`/`testFunc2`, so it escapes the runner and no
record is appended. -/
theorem C1_runner_appends_iff_caught (group name : String)
    (o : CallOutcome) (t : Nat) (failed : Bool) (rs : List TestResult) :
    (o ≠ CallOutcome.raises Exc.other →
      (∃ r, testFunc name o t failed rs
          = (rs ++ [r], failed || !r.passed, none)
        ∧ (r.passed = true ↔ o = CallOutcome.ok))
      ∧ (∃ r, testFunc2 group name o t failed rs
          = (rs ++ [r], failed || !r.passed, none)
        ∧ (r.passed = true ↔ o = CallOutcome.ok)
        ∧ r.group = group))
    ∧ (o = CallOutcome.raises Exc.other →
      testFunc name o t failed rs = (rs, failed, some Exc.other)
      ∧ testFunc2 group name o t failed rs = (rs, failed, some Exc.other)) := by
  constructor
  · intro ho
    cases o with
    | ok =>
      refine ⟨⟨{ name := name, group := "", passed := true, error := "",
                 elapsedUs := t }, ?_, ?_⟩,
              { name := name, group := group, passed := true, error := "",
                elapsedUs := t }, ?_, ?_, rfl⟩ <;>
        simp [testFunc, testFunc2]
    | raises e =>
      cases e with
      | assertion ex =>
        refine ⟨⟨{ name := name, group := "", passed := false,
                   error := ex.getFormattedMessage, elapsedUs := t },
                 ?_, ?_⟩,
                { name := name, group := group, passed := false,
                  error := ex.getFormattedMessage, elapsedUs := t },
                ?_, ?_, rfl⟩ <;>
          simp [testFunc, testFunc2]
      | std m =>
        refine ⟨⟨{ name := name, group := "", passed := false, error := m,
                   elapsedUs := t }, ?_, ?_⟩,
                { name := name, group := group, passed := false, error := m,
                  elapsedUs := t }, ?_, ?_, rfl⟩ <;>
          simp [testFunc, testFunc2]
      | other => exact absurd rfl ho
  · intro ho
    rw [ho]
    exact ⟨rfl, rfl⟩

/-- C1 witness: the amended theorem applied to a passing invocation. -/
theorem C1_runner_appends_iff_caught_witness :
    (CallOutcome.ok ≠ CallOutcome.raises Exc.other)
    ∧ ((∃ r, testFunc "t" CallOutcome.ok 5 false []
          = ([] ++ [r], false || !r.passed, none)
        ∧ (r.passed = true ↔ CallOutcome.ok = CallOutcome.ok))
      ∧ (∃ r, testFunc2 "g" "t" CallOutcome.ok 5 false []
          = ([] ++ [r], false || !r.passed, none)
        ∧ (r.passed = true ↔ CallOutcome.ok = CallOutcome.ok)
        ∧ r.group = "g")) :=
  ⟨by decide,
   (C1_runner_appends_iff_caught "g" "t" CallOutcome.ok 5 false []).1
     (by decide)⟩

/-- C1 counterexample: a thrown object not derived from `std::exception`
(e.g. `throw 42;`) escapes `testFunc` — contrary to the claim, no record
is appended and the exception propagates out of the runner. -/
theorem C1_counterexample_foreign_exception_escapes :
    (testFunc "t" (CallOutcome.raises Exc.other) 7 false []).1 = []
    ∧ (testFunc "t" (CallOutcome.raises Exc.other) 7 false []).2.2
        = some Exc.other :=
  ⟨rfl, rfl⟩

/-- C2: with an empty result store the epilog prints the "no tests"
notice and the exit status is `EXIT_SUCCESS` exactly when
`allowEmptyTests` is set; in particular `UTEST_PROLOG()` immediately
followed by `UTEST_EPILOG()` under the default configuration exits with
failure. -/
theorem C2_empty_store_verdict (errorFound : Bool) (cfg : Config) :
    "No tests were run!" ∈ (epilog [] errorFound cfg).1
    ∧ (epilog [] errorFound cfg).2
        = (if cfg.allowEmptyTests then EXIT_SUCCESS else EXIT_FAILURE)
    ∧ (epilog prolog.1 prolog.2 defaultConfig).2 = EXIT_FAILURE
    ∧ EXIT_SUCCESS = 0
    ∧ EXIT_FAILURE ≠ 0 := by
  refine ⟨?_, ?_, by decide, rfl, by decide⟩
  · cases h : cfg.allowEmptyTests <;> simp [epilog, h]
  · cases h : cfg.allowEmptyTests <;> simp [epilog, h]

/-- C3: for a non-empty result store the epilog's verdict is failure
exactly when the `errorFound` flag is set or some recorded result failed;
the last printed line is exactly `FAILURE` or `SUCCESS` accordingly, and
the exit status is `EXIT_FAILURE` (non-zero) for failure and
`EXIT_SUCCESS` (zero) for success. -/
theorem C3_nonempty_verdict (rs : List TestResult) (errorFound : Bool)
    (cfg : Config) (hne : rs ≠ []) :
    ((epilog rs errorFound cfg).2
        = (if errorFound || (rs.filter (fun r => !r.passed)).length > 0
           then EXIT_FAILURE else EXIT_SUCCESS))
    ∧ ((epilog rs errorFound cfg).2 = EXIT_FAILURE
        ↔ (errorFound = true
            ∨ 0 < (rs.filter (fun r => !r.passed)).length))
    ∧ (epilog rs errorFound cfg).1.getLast?
        = some (if errorFound || (rs.filter (fun r => !r.passed)).length > 0
                then "FAILURE" else "SUCCESS")
    ∧ EXIT_FAILURE ≠ 0
    ∧ EXIT_SUCCESS = 0 := by
  have hemp : rs.isEmpty = false := by
    cases rs with
    | nil => exact absurd rfl hne
    | cons a l => rfl
  have hcount :
      ((flatRecords (buildGroups rs)).filter (fun r => !r.passed)).length
        = (rs.filter (fun r => !r.passed)).length :=
    ((flatRecords_buildGroups_perm rs).filter _).length_eq
  refine ⟨?_, ?_, ?_, by decide, rfl⟩
  · simp only [epilog, hemp, Bool.false_eq_true, if_false, hcount]
  · simp only [epilog, hemp, Bool.false_eq_true, if_false, hcount]
    by_cases he : errorFound = true
    · subst he
      simp [EXIT_FAILURE, EXIT_SUCCESS]
    · have he' : errorFound = false := Bool.eq_false_iff.mpr he
      subst he'
      by_cases hc : 0 < (rs.filter (fun r => !r.passed)).length
      · simp [hc, EXIT_FAILURE, EXIT_SUCCESS]
      · simp [hc, EXIT_FAILURE, EXIT_SUCCESS, Nat.not_lt.mp hc]
  · simp only [epilog, hemp, Bool.false_eq_true, if_false, hcount]
    rw [getLast_append4]

/-- C3 witness: the theorem applied to a store holding one failed
record, with the flag set accordingly. -/
theorem C3_nonempty_verdict_witness :
    (([⟨"t", "", false, "boom", 3⟩] : List TestResult) ≠ [])
    ∧ ((epilog ([⟨"t", "", false, "boom", 3⟩] : List TestResult) true
          defaultConfig).2
        = (if true || (List.filter (fun r => !r.passed)
              ([⟨"t", "", false, "boom", 3⟩] : List TestResult)).length > 0
           then EXIT_FAILURE else EXIT_SUCCESS))
    ∧ ((epilog ([⟨"t", "", false, "boom", 3⟩] : List TestResult) true
          defaultConfig).2 = EXIT_FAILURE
        ↔ (true = true
            ∨ 0 < (List.filter (fun r => !r.passed)
                ([⟨"t", "", false, "boom", 3⟩] : List TestResult)).length))
    ∧ (epilog ([⟨"t", "", false, "boom", 3⟩] : List TestResult) true
          defaultConfig).1.getLast?
        = some (if true || (List.filter (fun r => !r.passed)
              ([⟨"t", "", false, "boom", 3⟩] : List TestResult)).length > 0
              then "FAILURE" else "SUCCESS")
    ∧ EXIT_FAILURE ≠ 0
    ∧ EXIT_SUCCESS = 0 :=
  ⟨by decide,
   C3_nonempty_verdict ([⟨"t", "", false, "boom", 3⟩] : List TestResult)
     true defaultConfig (by decide)⟩

/-- C4 (amended): the epilog partitions records by group — each group's
partition holds exactly the store's records of that group in registration
order; the empty group is rendered with no header and every other group
under the single header naming it; each group label appears once
(`Nodup`), its block is contiguous in the rendered report; but groups
appear in the `std::less<std::string>` (lexicographic) order of the
`std::map`, with the empty group necessarily first since no key sorts
below `""` — NOT in first-seen order. -/
theorem C4_grouping_partition_sorted (rs : List TestResult) (cfg : Config)
    (g : String) (hg : g ∈ (buildGroups rs).map Prod.fst) :
    lookupGroup g (buildGroups rs) = rs.filter (fun r => r.group = g)
    ∧ SortedKeys (buildGroups rs)
    ∧ ((buildGroups rs).map Prod.fst).Nodup
    ∧ groupHeaderLines "" = []
    ∧ (g = "" ∨ groupHeaderLines g = ["", g ++ ":"])
    ∧ (∃ pre post, renderGroups cfg (buildGroups rs)
        = pre ++ (groupHeaderLines g
            ++ (rs.filter (fun r => r.group = g)).map (renderRecord cfg))
          ++ post)
    ∧ (∀ s, strLt s "" = false) := by
  have hsort : SortedKeys (buildGroups rs) := buildGroups_sorted rs
  have hpart := lookupGroup_buildGroups rs g
  refine ⟨hpart, hsort, keys_nodup_of_sorted (buildGroups rs) hsort, rfl,
    ?_, ?_, strLt_to_empty⟩
  · by_cases hge : g = ""
    · exact Or.inl hge
    · exact Or.inr (by simp [groupHeaderLines, hge])
  · obtain ⟨m₁, vs, m₂, heq, hnot⟩ := mem_keys_split (buildGroups rs) hg
    have hvs : vs = rs.filter (fun r => r.group = g) := by
      rw [← hpart, heq, lookupGroup_append_not_mem vs m₂ hnot]
    refine ⟨renderGroups cfg m₁, renderGroups cfg m₂, ?_⟩
    rw [heq, renderGroups_append, ← hvs]
    simp [renderGroups]

/-- C4 witness: the amended theorem applied to a store with two records
of the group `grp`. -/
theorem C4_grouping_partition_sorted_witness :
    ("grp" ∈ (buildGroups
        ([⟨"t1", "grp", true, "", 0⟩, ⟨"t2", "grp", false, "e", 0⟩]
          : List TestResult)).map Prod.fst)
    ∧ (lookupGroup "grp" (buildGroups
          ([⟨"t1", "grp", true, "", 0⟩, ⟨"t2", "grp", false, "e", 0⟩]
            : List TestResult))
        = (([⟨"t1", "grp", true, "", 0⟩, ⟨"t2", "grp", false, "e", 0⟩]
            : List TestResult)).filter (fun r => r.group = "grp")
      ∧ SortedKeys (buildGroups
          ([⟨"t1", "grp", true, "", 0⟩, ⟨"t2", "grp", false, "e", 0⟩]
            : List TestResult))
      ∧ ((buildGroups ([⟨"t1", "grp", true, "", 0⟩,
            ⟨"t2", "grp", false, "e", 0⟩] : List TestResult)).map
          Prod.fst).Nodup
      ∧ groupHeaderLines "" = []
      ∧ ("grp" = "" ∨ groupHeaderLines "grp" = ["", "grp" ++ ":"])
      ∧ (∃ pre post, renderGroups defaultConfig (buildGroups
            ([⟨"t1", "grp", true, "", 0⟩, ⟨"t2", "grp", false, "e", 0⟩]
              : List TestResult))
          = pre ++ (groupHeaderLines "grp"
              ++ ((([⟨"t1", "grp", true, "", 0⟩,
                     ⟨"t2", "grp", false, "e", 0⟩]
                  : List TestResult)).filter
                  (fun r => r.group = "grp")).map
                  (renderRecord defaultConfig))
            ++ post)
      ∧ (∀ s, strLt s "" = false)) :=
  ⟨by decide,
   C4_grouping_partition_sorted
     ([⟨"t1", "grp", true, "", 0⟩, ⟨"t2", "grp", false, "e", 0⟩]
       : List TestResult) defaultConfig "grp" (by decide)⟩

/-- C4 counterexample: registering a test of group `b` and then one of
group `a` renders the groups in lexicographic order `a, b`, not the
first-seen order `b, a` the claim requires. -/
theorem C4_counterexample_not_first_seen_order :
    (buildGroups ([⟨"t1", "b", true, "", 0⟩, ⟨"t2", "a", true, "", 0⟩]
        : List TestResult)).map Prod.fst = ["a", "b"]
    ∧ firstSeenGroups ([⟨"t1", "b", true, "", 0⟩, ⟨"t2", "a", true, "", 0⟩]
        : List TestResult) = ["b", "a"]
    ∧ (["a", "b"] : List String) ≠ ["b", "a"] := by
  decide

/-- C5 (amended): the generic equality assertion (via
`check_not_pointer_types`) rejects at compile time every operand that is a
pointer, array, member-pointer or function-pointer type, for every pair of
operand types; the generic INEQUALITY assertion
(`UTEST_ASSERT_NOT_EQUALS`) carries no such guard and compiles for every
pair of operand types, pointer-like ones included. -/
theorem C5_equals_guard_not_equals_unguarded (t u : CppType) (n : Nat)
    (tag : String) :
    (assertEqualsCompiles t u = true
      ↔ (isAnyPointerOrArray t = false ∧ isAnyPointerOrArray u = false))
    ∧ isAnyPointerOrArray (CppType.ptr t) = true
    ∧ isAnyPointerOrArray (CppType.array t n) = true
    ∧ isAnyPointerOrArray (CppType.memberPtr tag) = true
    ∧ isAnyPointerOrArray (CppType.ptr (CppType.function tag)) = true
    ∧ assertEqualsCompiles (CppType.ptr t) u = false
    ∧ assertEqualsCompiles t (CppType.array u n) = false
    ∧ assertEqualsCompiles (CppType.memberPtr tag) u = false
    ∧ assertNotEqualsCompiles t u = true := by
  refine ⟨?_, ?_, ?_, ?_, ?_, ?_, ?_, ?_, rfl⟩
  · simp [assertEqualsCompiles]
  · simp [isAnyPointerOrArray, CppType.isPointer]
  · simp [isAnyPointerOrArray, CppType.isArray]
  · simp [isAnyPointerOrArray, CppType.isMemberPointer]
  · simp [isAnyPointerOrArray, CppType.isPointer]
  · simp [assertEqualsCompiles, isAnyPointerOrArray, CppType.isPointer]
  · simp [assertEqualsCompiles, isAnyPointerOrArray, CppType.isArray]
  · simp [assertEqualsCompiles, isAnyPointerOrArray,
      CppType.isMemberPointer]

/-- C5 counterexample: two `int*` operands are pointer-typed, yet
`UTEST_ASSERT_NOT_EQUALS` compiles for them — the inequality assertion is
not guarded, contrary to the claim. -/
theorem C5_counterexample_not_equals_accepts_pointers :
    assertNotEqualsCompiles (CppType.ptr (CppType.scalar "int"))
        (CppType.ptr (CppType.scalar "int")) = true
    ∧ isAnyPointerOrArray (CppType.ptr (CppType.scalar "int")) = true
    ∧ assertEqualsCompiles (CppType.ptr (CppType.scalar "int"))
        (CppType.ptr (CppType.scalar "int")) = false := by
  decide

theorem convertStrategy_source_eq_spec :
    ∀ t : TypeDesc, sourceConvertStrategy t = specConvertStrategy t := by
  intro t
  obtain ⟨a, b, c, d, e, f, g, h, i⟩ := t
  cases a <;> cases b <;> cases c <;> cases d <;> cases e <;> cases f <;>
    cases g <;> cases h <;> cases i <;> rfl

/-- C6: the Stringifier's strategy selection by static type — numeric
(arithmetic excluding `bool` and character-like) before streamable before
the opaque fallback, with the exact-type special cases taking
precedence — agrees with the spec's priority ordering on every type, and
on concrete values the special cases return strings verbatim, render
booleans as `true`/`false`, a `char` as a one-character string, a numeric
value in decimal, and the fallback string contains the type's name and
the storage address. -/
theorem C6_stringifier_dispatch (t : TypeDesc) (n : Int) (b : Bool)
    (c : Char) (s streamed ty addr : String) :
    sourceConvertStrategy t = specConvertStrategy t
    ∧ convertToString (CppValue.boolVal b) = (if b then "true" else "false")
    ∧ convertToString (CppValue.charVal c) = String.mk [c]
    ∧ convertToString (CppValue.stringVal s) = s
    ∧ convertToString (CppValue.cstrVal s) = s
    ∧ convertToString (CppValue.intVal n) = toString n
    ∧ convertToString (CppValue.streamableVal streamed) = streamed
    ∧ strContains (convertToString (CppValue.opaqueVal ty addr)) ty = true
    ∧ strContains (convertToString (CppValue.opaqueVal ty addr)) addr
        = true := by
  refine ⟨?_, rfl, rfl, rfl, rfl, rfl, rfl, ?_, ?_⟩
  · exact convertStrategy_source_eq_spec t
  · exact strContains_of_split (p := "[") (q := " at " ++ addr ++ "]")
      (by simp [convertToString, stringAppend_assoc])
  · exact strContains_of_split (p := "[" ++ ty ++ " at ") (q := "]")
      (by simp [convertToString, stringAppend_assoc])

/-- C7: `AssertThrows` succeeds exactly when invoking the callable raised
some exception — of any kind, since the result does not depend on which
exception was thrown; when nothing was thrown it raises an
`AssertionException` whose message states that the expected exception was
not thrown; a thrown exception is only captured into the informational
`exceptionMsg` (with `e.what()`, or `"unknown exception"` for a foreign
object) and is never re-raised. -/
theorem C7_assert_throws (o : Option Exc) (msg : String) (e f : Exc) :
    (AssertThrows o msg = Except.ok () ↔ o.isSome = true)
    ∧ AssertThrows (some e) msg = Except.ok ()
    ∧ AssertThrows (some e) msg = AssertThrows (some f) msg
    ∧ AssertThrows none ""
        = Except.error (AssertionException.mkNoLoc
            "Expected exception was not thrown")
    ∧ (∃ ex, AssertThrows none msg = Except.error ex
        ∧ strContains ex.message "Expected exception was not thrown" = true)
    ∧ assertThrowsCapturedMsg (some Exc.other) = "unknown exception"
    ∧ (∀ m, assertThrowsCapturedMsg (some (Exc.std m)) = m) := by
  refine ⟨?_, rfl, rfl, rfl, ?_, rfl, fun m => rfl⟩
  · cases o with
    | none =>
      constructor
      · intro h
        by_cases hm : msg.length > 0 <;> simp [AssertThrows, hm] at h
      · intro h
        simp at h
    | some e₀ => simp [AssertThrows]
  · by_cases hm : msg.length > 0
    · refine ⟨AssertionException.mkNoLoc
        ("Expected exception was not thrown: " ++ msg), ?_, ?_⟩
      · simp [AssertThrows, hm]
      · apply strContains_of_split (p := "") (q := ": " ++ msg)
        rw [stringEmpty_append, ← stringAppend_assoc]
        have hlit : ("Expected exception was not thrown" ++ ": " : String)
            = "Expected exception was not thrown: " := by decide
        rw [hlit]
        rfl
    · refine ⟨AssertionException.mkNoLoc
        "Expected exception was not thrown", ?_, ?_⟩
      · simp [AssertThrows, hm]
      · apply strContains_of_split (p := "") (q := "")
        rw [stringEmpty_append, stringAppend_empty]
        rfl

/-- C8: the substring check coerces both operands to text and searches;
an empty needle is contained in every string, and no non-empty needle is
contained in the empty string. -/
theorem C8_contains_empty_cases (s x : String) (a b : StrVal)
    (hx : x ≠ "") :
    strContains s "" = true
    ∧ strContains "" x = false
    ∧ strContainsVal a b
        = strContains (toStringForStrAssert a) (toStringForStrAssert b) := by
  refine ⟨?_, ?_, rfl⟩
  · show (stringFindL s.toList "".toList).isSome = true
    rw [stringFindL.eq_def]
    have h : startsWithL s.toList "".toList = true := by
      exact startsWithL_nil_needle s.toList
    rw [h]
    simp
  · cases hcl : x.toList with
    | nil =>
      have : x = "" := stringToList_inj (by rw [hcl]; rfl)
      exact absurd this hx
    | cons c cs =>
      show (stringFindL "".toList x.toList).isSome = false
      rw [hcl]
      rw [stringFindL.eq_def]
      simp [startsWithL]

/-- C8 witness: the theorem applied at `s = "hello world"`, `x = "x"`. -/
theorem C8_contains_empty_cases_witness :
    (("x" : String) ≠ "")
    ∧ (strContains "hello world" "" = true
      ∧ strContains "" "x" = false
      ∧ strContainsVal (StrVal.stdStr "ab") (StrVal.cStr "b")
          = strContains (toStringForStrAssert (StrVal.stdStr "ab"))
              (toStringForStrAssert (StrVal.cStr "b"))) :=
  ⟨by decide,
   C8_contains_empty_cases "hello world" "x" (StrVal.stdStr "ab")
     (StrVal.cStr "b") (by decide)⟩

/-- C9 (amended): the string equality/inequality assertions coerce each
operand with the `std::string` constructor and compare the coerced texts
— they accept native strings and C-style strings (so they are not
pointer-guarded: `char*` operands, which the generic equality assertion
rejects, are accepted) and raise on mismatch with both texts embedded in
the message; operands the `std::string` constructor does not accept —
wide strings among them — do not compile.  The best-effort wide-character
ASCII transliteration (code points ≤ 127 kept, all others replaced by the
placeholder `?`) belongs to `to_string_for_str_assert`, the coercion
helper of the substring assertions. -/
theorem C9_str_equals_coercion (x y : String) (ws : List Nat)
    (file : String) (line : Nat) (fn : String) :
    (assertStrEquals x y file line fn = Except.ok () ↔ x = y)
    ∧ strEqualsCoerce (StrVal.stdStr x) = some x
    ∧ strEqualsCoerce (StrVal.cStr x) = some x
    ∧ strEqualsCoerce (StrVal.wStr ws) = none
    ∧ strEqualsCoerce (StrVal.wCStr ws) = none
    ∧ toStringForStrAssert (StrVal.wStr ws)
        = String.mk (ws.map (fun wc => if wc ≤ 127 then Char.ofNat wc
            else '?'))
    ∧ toStringForStrAssert (StrVal.wCStr ws)
        = toStringForStrAssert (StrVal.wStr ws)
    ∧ assertEqualsCompiles (CppType.ptr (CppType.scalar "char"))
        (CppType.ptr (CppType.scalar "char")) = false
    ∧ (∃ ex, assertStrEquals "hello" "world" file line fn
          = Except.error ex
        ∧ strContains ex.message "hello" = true
        ∧ strContains ex.message "world" = true) := by
  refine ⟨?_, rfl, rfl, rfl, rfl, rfl, rfl, by decide, ?_⟩
  · by_cases h : x = y
    · simp [assertStrEquals, h]
    · simp [assertStrEquals, h]
  · have hne : ("hello" : String) ≠ "world" := by decide
    refine ⟨{ message := "String assertion failed: \"" ++ "hello"
                ++ "\" != \"" ++ "world" ++ "\"",
              file := file, line := line, function := fn }, ?_, ?_, ?_⟩
    · simp [assertStrEquals, hne]
    · show strContains ("String assertion failed: \"" ++ "hello"
        ++ "\" != \"" ++ "world" ++ "\"") "hello" = true
      decide
    · show strContains ("String assertion failed: \"" ++ "hello"
        ++ "\" != \"" ++ "world" ++ "\"") "world" = true
      decide

/-- C9 counterexample: `UTEST_ASSERT_STR_EQUALS` cannot coerce a wide
string at all (there is no `std::string` constructor from
`std::wstring`), so the equality assertion's coercion does not perform
the transliteration the claim ascribes to it; the transliteration (here
`[65, 9731] ↦ "A?"`) is performed by `to_string_for_str_assert`, which
the equality/inequality assertions do not use. -/
theorem C9_counterexample_wide_operand_not_coerced :
    strEqualsCoerce (StrVal.wStr [65, 9731]) = none
    ∧ toStringForStrAssert (StrVal.wStr [65, 9731]) = "A?" := by
  constructor
  · rfl
  · decide

/-- C10: the process-wide configuration defaults — ASCII checkmarks on
(markers `[OK]`/`[FAIL]`), performance output on, empty test runs not
allowed, verbose mode off. -/
theorem C10_default_configuration :
    defaultConfig.useAsciiCheckmarks = true
    ∧ successMark defaultConfig = "[OK]"
    ∧ failMark defaultConfig = "[FAIL]"
    ∧ defaultConfig.showPerformanceInfo = true
    ∧ defaultConfig.allowEmptyTests = false
    ∧ defaultConfig.verboseMode = false :=
  ⟨rfl, rfl, rfl, rfl, rfl, rfl⟩

end UTest
